import Mathlib

/-!
Verification of the ExpenseVision receipt-processing pipeline (`src/app.py`).

This file gives a shallow embedding of the parts of `app.py` that the
specification talks about: the heuristic receipt-text parser
(`parse_receipt_text`), the Veryfi structured-response normalizer
(`_get_nested_value` / `parse_receipt_veryfi`), the keyword classifier
(`SimpleExpenseClassifier`), and the `/api/ocr` route handler
(`ocr_receipt`).  Python strings are embedded as Lean `String`s
(character lists), Python floats as exact decimals, Python dicts
as insertion-ordered association lists, and JSON values as an inductive
type.  The concrete regular expressions used by the parser are embedded
as hand-rolled matchers reproducing `re.search`'s leftmost-position,
greedy-with-backtracking semantics for exactly those patterns.
-/

namespace ExpenseVision

/-- Decidable equality for `Except` results, used to evaluate concrete runs of
the fallible operations below. -/
instance {ε α : Type} [DecidableEq ε] [DecidableEq α] : DecidableEq (Except ε α)
  | .error e, .error f => decidable_of_iff (e = f) (by simp)
  | .error _, .ok _ => isFalse (by simp)
  | .ok _, .error _ => isFalse (by simp)
  | .ok a, .ok b => decidable_of_iff (a = b) (by simp)

/-! ## Python string primitives -/

/-- Characters stripped by Python `str.strip()` with no arguments and matched
by the regex class `\s` (ASCII range). -/
def pySpaceChar (c : Char) : Bool :=
  c = ' ' || c = '\t' || c = '\n' || c = '\r' || c = '\x0b' || c = '\x0c'

/-- Python `str.strip()`: drop leading and trailing whitespace. -/
def pyStrip (s : String) : String :=
  String.mk (((s.data.dropWhile pySpaceChar).reverse.dropWhile pySpaceChar).reverse)

/-- Python `str.lower()` (ASCII case folding; all inputs considered in the
theorems below are ASCII). -/
def pyLower (s : String) : String := String.mk (s.data.map Char.toLower)

/-- Split a character list at every character satisfying `p`, keeping empty
pieces (the semantics of Python `str.split(sep)` for a one-character
separator); `cur` is the reversed piece being accumulated. -/
def splitChars (p : Char → Bool) (cur : List Char) : List Char → List (List Char)
  | [] => [cur.reverse]
  | c :: t => if p c then cur.reverse :: splitChars p [] t else splitChars p (c :: cur) t

/-- Python `text.split('\n')`. -/
def pySplitNl (s : String) : List String :=
  (splitChars (· = '\n') [] s.data).map String.mk

/-- Python `', '.join(xs)`-style joining. -/
def pyJoin (sep : String) (xs : List String) : String :=
  String.mk (List.intercalate sep.data (xs.map String.data))

/-- Substring test on character lists: does `pat` occur inside the list? -/
def listContains (pat : List Char) : List Char → Bool
  | [] => pat.isEmpty
  | c :: t => pat.isPrefixOf (c :: t) || listContains pat t

/-- Python's `needle in hay` substring test. -/
def pyIn (needle hay : String) : Bool := listContains needle.data hay.data

/-- Numeric value of a list of decimal digit characters. -/
def digitsVal (l : List Char) : ℕ :=
  l.foldl (fun n c => 10 * n + (c.toNat - '0'.toNat)) 0

/-- An exact decimal number `mant / 10 ^ exp`: the value denoted by a Python
decimal literal.  Python `float` values are embedded as the exact decimals
they are parsed from; the comparisons the source performs on them
(`> 0`, `< 10000`) are value comparisons, implemented below without rational
normalization so that concrete runs reduce in the kernel. -/
structure Dec where
  mant : ℤ
  exp : ℕ
  deriving Repr, DecidableEq

/-- The rational value of an exact decimal. -/
def Dec.toRat (d : Dec) : ℚ := (d.mant : ℚ) / 10 ^ d.exp

/-- Python `float()` applied to a regex group of shape `\d+(\.\d*)?` or
`\d+\.\d{2}` (the only shapes produced by the amount patterns below); such a
conversion always succeeds, yielding the exact decimal value. -/
def parseDecGroup (l : List Char) : Option Dec :=
  let ip := l.takeWhile Char.isDigit
  if ip = [] then none
  else
    match l.drop ip.length with
    | [] => some ⟨digitsVal ip, 0⟩
    | '.' :: frac =>
        if frac.all Char.isDigit then
          some ⟨digitsVal ip * 10 ^ frac.length + digitsVal frac, frac.length⟩
        else none
    | _ => none

/-! ## `re.search` embedding for the amount patterns

`parse_receipt_text` uses, in priority order,
`total[:\s]+\$?(\d+\.?\d*)`, `amount[:\s]+\$?(\d+\.?\d*)`,
`\$(\d+\.\d{2})` and `(\d+\.\d{2})`, each applied with `re.search` to the
lower-cased line.  `re.search` returns the match at the leftmost starting
position.  For these particular patterns greedy matching never needs to
backtrack across subpattern boundaries (each greedy run is followed by a
character class disjoint from it), so each pattern is embedded as a
deterministic matcher applied at every position from the left. -/

/-- Try a positional matcher at every start position, leftmost first
(the semantics of `re.search`). -/
def scanSearch (m : List Char → Option α) : List Char → Option α
  | [] => m []
  | c :: t => m (c :: t) <|> scanSearch m t

/-- Characters matched by the class `[:\s]` in the labeled amount patterns. -/
def isAmtSep (c : Char) : Bool := c = ':' || pySpaceChar c

/-- Matcher for `label[:\s]+\$?(\d+\.?\d*)` at the current position; returns
the capture group (the numeric substring). -/
def matchLabeled (label : List Char) (s : List Char) : Option (List Char) :=
  if label.isPrefixOf s then
    let r1 := s.drop label.length
    let seps := r1.takeWhile isAmtSep
    if seps = [] then none
    else
      let r2 := r1.drop seps.length
      let r3 := match r2 with
        | '$' :: t => t
        | t => t
      let ds := r3.takeWhile Char.isDigit
      if ds = [] then none
      else
        match r3.drop ds.length with
        | '.' :: t => some (ds ++ '.' :: t.takeWhile Char.isDigit)
        | _ => some ds
  else none

/-- Matcher for `\$(\d+\.\d{2})` at the current position. -/
def matchDollar (s : List Char) : Option (List Char) :=
  match s with
  | '$' :: t =>
      let ds := t.takeWhile Char.isDigit
      if ds = [] then none
      else
        match t.drop ds.length with
        | '.' :: a :: b :: _ =>
            if a.isDigit && b.isDigit then some (ds ++ ['.', a, b]) else none
        | _ => none
  | _ => none

/-- Matcher for `(\d+\.\d{2})` at the current position. -/
def matchBare (s : List Char) : Option (List Char) :=
  let ds := s.takeWhile Char.isDigit
  if ds = [] then none
  else
    match s.drop ds.length with
    | '.' :: a :: b :: _ =>
        if a.isDigit && b.isDigit then some (ds ++ ['.', a, b]) else none
    | _ => none

/-! ## Amount extraction (`parse_receipt_text`, lines 247-266) -/

/-- All numeric candidates produced on one line: the four patterns are applied
with `re.search` to the lower-cased line, in the source's priority order, and
every successful match is converted by `float()`. -/
def lineCandidates (line : String) : List Dec :=
  let l := (pyLower line).data
  ([scanSearch (matchLabeled "total".data) l,
    scanSearch (matchLabeled "amount".data) l,
    scanSearch matchDollar l,
    scanSearch matchBare l]).filterMap (fun o => o.bind parseDecGroup)

/-- The sanity range check `amount > 0 and amount < 10000`. -/
def amountInRange (a : Dec) : Bool := (0 < a.mant) && (a.mant < 10000 * 10 ^ a.exp)

/-- On one line the source takes the first pattern (in priority order) whose
matched value passes the range check; out-of-range or unparsable matches fall
through to the next pattern. -/
def extractLineAmount (line : String) : Option Dec :=
  (lineCandidates line).find? amountInRange

/-- Line loop of the amount extraction: the `result['amount'] is None` guard
together with the inner `break` makes each subsequent line contribute only
when no earlier line produced an in-range value. -/
def extractAmountLines (ls : List String) : Option Dec :=
  ls.foldl (fun acc l => acc <|> extractLineAmount l) none

/-- Amount extraction of `parse_receipt_text`: the text is split on newlines
and the lines are scanned top-to-bottom. -/
def extractAmount (text : String) : Option Dec :=
  extractAmountLines (pySplitNl text)

/-- Every numeric candidate of the whole document, in scan order. -/
def amountCandidates (text : String) : List Dec :=
  ((pySplitNl text).map lineCandidates).flatten

/-! ## Date extraction (`parse_receipt_text`, lines 268-281)

Patterns `(\d{1,2}[S]\d{1,2}[S]\d{2,4})` and
`(\d{4}[S]\d{1,2}[S]\d{1,2})`, tried in that order on each line; the first
match anywhere wins and its literal text is the extracted date.  Bounded
quantifiers are greedy: `\d{1,2}` prefers two digits, `\d{2,4}` prefers four,
with full backtracking, which the matchers below reproduce via ordered
alternatives. -/

/-- Consume exactly `n` digit characters, returning them and the rest. -/
def digitsN : Nat → List Char → Option (List Char × List Char)
  | 0, s => some ([], s)
  | _ + 1, [] => none
  | n + 1, c :: t =>
      if c.isDigit then (digitsN n t).map (fun p => (c :: p.1, p.2)) else none

/-- Consume one separator character of the class `[S]`. -/
def dateSep : List Char → Option (Char × List Char)
  | c :: t => if c = '/' || c = '-' then some (c, t) else none
  | [] => none

/-- Year part `\d{2,4}` of the day/month/year pattern (greedy: 4, 3, then 2
digits); `pre` is the text matched so far. -/
def dmyYear (pre : List Char) (r : List Char) : Option (List Char) :=
  ((digitsN 4 r) <|> (digitsN 3 r) <|> (digitsN 2 r)).map (fun p => pre ++ p.1)

/-- Separator and year after the month of the day/month/year pattern. -/
def dmyAfterMonth (pre : List Char) (r : List Char) : Option (List Char) :=
  match dateSep r with
  | some (s2, r2) => dmyYear (pre ++ [s2]) r2
  | none => none

/-- Month part `\d{1,2}` (greedy: 2 then 1 digits) of the day/month/year
pattern. -/
def dmyMonthAt (pre : List Char) (r : List Char) : Option (List Char) :=
  ((digitsN 2 r).bind fun p => dmyAfterMonth (pre ++ p.1) p.2) <|>
  ((digitsN 1 r).bind fun p => dmyAfterMonth (pre ++ p.1) p.2)

/-- Separator and the rest after the day of the day/month/year pattern. -/
def dmyAfterDay (pre : List Char) (r : List Char) : Option (List Char) :=
  match dateSep r with
  | some (s1, r2) => dmyMonthAt (pre ++ [s1]) r2
  | none => none

/-- The full day/month/year pattern `\d{1,2}[S]\d{1,2}[S]\d{2,4}` anchored
at the current position; returns the matched literal substring. -/
def dmyAt (s : List Char) : Option (List Char) :=
  ((digitsN 2 s).bind fun p => dmyAfterDay p.1 p.2) <|>
  ((digitsN 1 s).bind fun p => dmyAfterDay p.1 p.2)

/-- Day part `\d{1,2}` at the end of the year/month/day pattern. -/
def ymdDay (pre : List Char) (r : List Char) : Option (List Char) :=
  ((digitsN 2 r) <|> (digitsN 1 r)).map (fun p => pre ++ p.1)

/-- Separator and day after the month of the year/month/day pattern. -/
def ymdAfterMonth (pre : List Char) (r : List Char) : Option (List Char) :=
  match dateSep r with
  | some (s2, r2) => ymdDay (pre ++ [s2]) r2
  | none => none

/-- Month part `\d{1,2}` of the year/month/day pattern. -/
def ymdMonthAt (pre : List Char) (r : List Char) : Option (List Char) :=
  ((digitsN 2 r).bind fun p => ymdAfterMonth (pre ++ p.1) p.2) <|>
  ((digitsN 1 r).bind fun p => ymdAfterMonth (pre ++ p.1) p.2)

/-- The full year/month/day pattern `\d{4}[S]\d{1,2}[S]\d{1,2}` anchored at
the current position. -/
def ymdAt (s : List Char) : Option (List Char) :=
  (digitsN 4 s).bind fun p =>
    match dateSep p.2 with
    | some (s1, r2) => ymdMonthAt (p.1 ++ [s1]) r2
    | none => none

/-- Date search on one line: the day/month/year pattern is searched over the
whole line first; only if it finds no match anywhere is the year/month/day
pattern searched. -/
def dateSearchLine (line : String) : Option String :=
  ((scanSearch dmyAt line.data) <|> (scanSearch ymdAt line.data)).map String.mk

/-- Line loop of the date extraction: first line with a match wins. -/
def extractDateLines : List String → Option String
  | [] => none
  | l :: t =>
      match dateSearchLine l with
      | some d => some d
      | none => extractDateLines t

/-- Date extraction of `parse_receipt_text`. -/
def extractDate (text : String) : Option String :=
  extractDateLines (pySplitNl text)

/-! ## Vendor extraction (`parse_receipt_text`, lines 283-288) -/

/-- Presence of a run of three or more consecutive digits
(`re.search(r'\d{3,}', line)`). -/
def hasDigitRun3 : List Char → Bool
  | a :: b :: c :: t => (a.isDigit && b.isDigit && c.isDigit) || hasDigitRun3 (b :: c :: t)
  | _ => false

/-- The vendor-line test: truthy, longer than 2 characters, and no run of 3+
consecutive digits, applied to the stripped line. -/
def vendorOk (t : String) : Bool :=
  (t != "") && (t.length > 2) && !(hasDigitRun3 t.data)

/-- Loop body of the vendor extraction: first qualifying line wins. -/
def extractVendorLines : List String → Option String
  | [] => none
  | l :: rest =>
      let t := pyStrip l
      if vendorOk t then some t else extractVendorLines rest

/-- Vendor extraction of `parse_receipt_text`: only `lines[:5]`, the first
five raw lines of the split (blank lines included), are inspected. -/
def extractVendor (text : String) : Option String :=
  extractVendorLines ((pySplitNl text).take 5)

/-! ## Description extraction (`parse_receipt_text`, lines 290-299) -/

/-- Characters of the noise class `[\d\s\.\,\$]` used by the description
filter. -/
def descNoiseChar (c : Char) : Bool :=
  c.isDigit || pySpaceChar c || c = '.' || c = ',' || c = '$'

/-- A stripped line qualifies for the description when it is nonempty, longer
than 1 character, and not composed solely of noise characters
(`re.match(r'^[\d\s\.\,\$]+$', line)` fails). -/
def descLineOk (t : String) : Bool :=
  (t != "") && (t.length > 1) && !(t.data.all descNoiseChar)

/-- Collect up to `n` qualifying stripped lines from the given lines. -/
def collectDescLines : List String → Nat → List String
  | [], _ => []
  | _, 0 => []
  | l :: t, n + 1 =>
      let s := pyStrip l
      if descLineOk s then s :: collectDescLines t n else collectDescLines t (n + 1)

/-- Description extraction of `parse_receipt_text`: up to 5 qualifying lines
among `lines[:12]`, joined with single spaces and truncated to 500
characters. -/
def extractDescription (text : String) : Option String :=
  let ds := collectDescLines ((pySplitNl text).take 12) 5
  if ds = [] then none
  else some (String.mk ((pyJoin " " ds).data.take 500))

/-! ## The canonical parsed-receipt record -/

/-- One line item of a parsed receipt. -/
structure ReceiptItem where
  description : String
  total : Option Dec
  deriving Repr, DecidableEq

/-- The result dictionary of `parse_receipt_text` (and, with `raw_text`
stripped off, of `parse_receipt_veryfi`). -/
structure ParsedReceipt where
  amount : Option Dec
  vendor : Option String
  date : Option String
  items : List ReceiptItem
  description : Option String
  deriving Repr, DecidableEq

/-- Embedding of `parse_receipt_text`: the four field extractions are
independent scans of the same text. -/
def parseReceiptText (text : String) : ParsedReceipt :=
  { amount := extractAmount text
    vendor := extractVendor text
    date := extractDate text
    items := []
    description := extractDescription text }

/-! ## JSON values and the Veryfi structured-response normalizer

The Veryfi backend's response (`resp.json()` in `parse_receipt_veryfi`) is a
JSON value; Python `None` and JSON `null` coincide after decoding and are both
embedded as `JVal.null`.  Dicts are insertion-ordered association lists. -/

/-- A decoded JSON value as manipulated by `parse_receipt_veryfi`. -/
inductive JVal where
  | null
  | bool (b : Bool)
  | num (d : Dec)
  | str (s : String)
  | arr (xs : List JVal)
  | obj (fields : List (String × JVal))
  deriving Repr

/-- First binding of a key in a dict, as Python dict lookup. -/
def lookupField : List (String × JVal) → String → Option JVal
  | [], _ => none
  | (k, v) :: t, key => if k = key then some v else lookupField t key

/-- Python truthiness of a decoded JSON value. -/
def truthy : JVal → Bool
  | .null => false
  | .bool b => b
  | .num d => d.mant != 0
  | .str s => s != ""
  | .arr xs => !xs.isEmpty
  | .obj fs => !fs.isEmpty

/-- Python's `a or b` on decoded JSON values. -/
def pyOrJ (a b : JVal) : JVal := if truthy a then a else b

/-- One step of the key walk in `_get_nested_value`:
`obj.get(key) if isinstance(obj, dict) else getattr(obj, key, None)`
(a missing dict key, a `None`, and a non-dict scalar all yield `None`). -/
def jGet : JVal → String → JVal
  | .obj fs, k => (lookupField fs k).getD .null
  | _, _ => .null

/-- Embedding of `_get_nested_value` (lines 313-321): walk the keys, then
unwrap a single `value` wrapper if the result is a dict containing the key
`"value"`. -/
def getNestedValue (obj : JVal) (keys : List String) : JVal :=
  match keys.foldl jGet obj with
  | .obj fs =>
      match lookupField fs "value" with
      | some v => v
      | none => .obj fs
  | v => v

/-- Python `float()` on an unsigned decimal literal (digits with an optional
decimal point, at least one digit overall).  Exponent, infinity and NaN forms
of Python's `float()` are not modelled; no input considered here uses them. -/
def parseUnsignedFloat (l : List Char) : Option Dec :=
  let ip := l.takeWhile Char.isDigit
  match l.drop ip.length with
  | [] => if ip.isEmpty then none else some ⟨digitsVal ip, 0⟩
  | '.' :: frac =>
      if frac.all Char.isDigit && (!ip.isEmpty || !frac.isEmpty) then
        some ⟨digitsVal ip * 10 ^ frac.length + digitsVal frac, frac.length⟩
      else none
  | _ => none

/-- Python `float()` on a string: strip whitespace, optional sign, decimal
literal. -/
def pyParseFloat (s : String) : Option Dec :=
  match (pyStrip s).data with
  | '+' :: t => parseUnsignedFloat t
  | '-' :: t => (parseUnsignedFloat t).map (fun d => ⟨-d.mant, d.exp⟩)
  | t => parseUnsignedFloat t

/-- Python `float(x)` on a decoded JSON value: numbers and numeric strings
convert, booleans convert to 1/0, everything else raises `TypeError` (which
all call sites in `parse_receipt_veryfi` catch, producing `None`). -/
def pyFloat : JVal → Option Dec
  | .num d => some d
  | .bool b => some (if b then ⟨1, 0⟩ else ⟨0, 0⟩)
  | .str s => pyParseFloat s
  | _ => none

/-- The `meta = data.get('meta') or {}` line of `parse_receipt_veryfi`. -/
def veryfiMeta (data : JVal) : JVal :=
  pyOrJ (jGet data "meta") (.obj [])

/-- The `total_val = _get_nested_value(meta, 'total') or
_get_nested_value(data, 'total')` line. -/
def veryfiTotalRaw (data : JVal) : JVal :=
  pyOrJ (getNestedValue (veryfiMeta data) ["total"]) (getNestedValue data ["total"])

/-- The amount normalization of `parse_receipt_veryfi` (lines 350-355):
`None` stays absent, any other value is coerced with `float()`, and a
coercion failure (`TypeError`/`ValueError`) degrades to absent. -/
def veryfiAmount (data : JVal) : Option Dec :=
  match veryfiTotalRaw data with
  | .null => none
  | v => pyFloat v

/-- The date normalization: nested lookup with fallback, then truncation of
an ISO datetime string at the first `'T'`. -/
def veryfiDate (data : JVal) : JVal :=
  let d := pyOrJ (getNestedValue (veryfiMeta data) ["date"]) (jGet data "date")
  match d with
  | .str s => if s != "" && pyIn "T" s then .str (String.mk (s.data.takeWhile (· != 'T'))) else .str s
  | v => v

/-- The `vendor_obj = meta.get('vendor') or data.get('vendor')` line. -/
def veryfiVendorObj (data : JVal) : JVal :=
  pyOrJ (jGet (veryfiMeta data) "vendor") (jGet data "vendor")

/-- The vendor normalization: prefer `name` over `raw_name` when the vendor
is a dict, otherwise pass the value through. -/
def veryfiVendorVal (data : JVal) : JVal :=
  match veryfiVendorObj data with
  | .obj fs => pyOrJ ((lookupField fs "name").getD .null) ((lookupField fs "raw_name").getD .null)
  | v => v

/-- The fixed Veryfi-to-app category translation table. -/
def veryfiToAppCategory : List (String × String) :=
  [("food and groceries", "Groceries"),
   ("meals & entertainment", "Food & Dining"),
   ("food and grocers", "Groceries"),
   ("travel", "Travel"),
   ("transportation", "Transportation"),
   ("automotive", "Transportation"),
   ("office supplies & software", "Shopping"),
   ("utilities", "Bills & Utilities"),
   ("healthcare", "Healthcare"),
   ("training & education", "Education")]

/-- Lookup in a string-to-string table (Python `dict.get(key, default)`). -/
def lookupStr : List (String × String) → String → Option String
  | [], _ => none
  | (k, v) :: t, key => if k = key then some v else lookupStr t key

/-- The category normalization: resolve the backend label case-insensitively
through the table; an unrecognized label passes through unchanged. -/
def veryfiCategory (data : JVal) : JVal :=
  let dc := pyOrJ (getNestedValue (veryfiMeta data) ["default_category"])
      (pyOrJ (jGet (veryfiMeta data) "default_category") (jGet data "category"))
  match dc with
  | .str s =>
      if s != "" then .str ((lookupStr veryfiToAppCategory (pyStrip (pyLower s))).getD s)
      else .str s
  | v => v

/-- Python-style exceptions that `parse_receipt_veryfi` and
`SimpleExpenseClassifier.train` can raise past their own bodies. -/
inductive PyErr where
  | keyError
  | attrError
  | typeError
  deriving Repr, DecidableEq

/-- The raw description of one line item:
`(li.get('description') or li.get('text') or '').strip()`.  A truthy
non-string value has no `.strip()` and raises `AttributeError`. -/
def itemRawDesc (li : JVal) : Except PyErr String :=
  match pyOrJ (jGet li "description") (pyOrJ (jGet li "text") (.str "")) with
  | .str s => .ok (pyStrip s)
  | _ => .error .attrError

/-- The total of one line item: `li.get('total') or li.get('price')`, coerced
with `float()` when not `None`, degrading to `None` on coercion failure. -/
def itemTotal (li : JVal) : Option Dec :=
  match pyOrJ (jGet li "total") (jGet li "price") with
  | .null => none
  | v => pyFloat v

/-- A printable rendering of a non-dict line item (`str(li)`); no claim
depends on its exact text, and non-dict items never contribute to
`item_descriptions`. -/
def pyStrOfJVal : JVal → String
  | .null => "None"
  | .bool true => "True"
  | .bool false => "False"
  | .num d => toString d.mant ++ "e-" ++ toString d.exp
  | .str s => s
  | .arr _ => "[...]"
  | .obj _ => "\x7b...\x7d"

/-- The line-item loop of `parse_receipt_veryfi` (lines 385-401): dict items
contribute a stripped description (collected into `item_descriptions` when
nonempty) and a coerced total; non-dict items are stringified with no
description collected. -/
def parseLineItems : List JVal → Except PyErr (List ReceiptItem × List String)
  | [] => .ok ([], [])
  | li :: rest =>
      match li with
      | .obj fs =>
          match itemRawDesc (.obj fs) with
          | .error e => .error e
          | .ok d =>
              (parseLineItems rest).map (fun p =>
                (⟨d, itemTotal (.obj fs)⟩ :: p.1,
                 if d ≠ "" then d :: p.2 else p.2))
      | other =>
          (parseLineItems rest).map (fun p => (⟨pyStrOfJVal other, none⟩ :: p.1, p.2))

/-- The `line_items = data.get('line_items') or []` line followed by the item
loop; iterating a truthy non-list raises. -/
def veryfiLineItems (data : JVal) : Except PyErr (List ReceiptItem × List String) :=
  match pyOrJ (jGet data "line_items") (.arr []) with
  | .arr xs => parseLineItems xs
  | _ => .error .typeError

/-- The description built from the collected line-item descriptions
(lines 404-408): comma-separated join of the first 15, with a
`" (+<n> more)"` suffix counting the omitted items. -/
def buildItemsDescription (ds : List String) : Option String :=
  if ds.isEmpty then none
  else some (pyJoin ", " (ds.take 15) ++
    (if 15 < ds.length then " (+" ++ toString (ds.length - 15) ++ " more)" else ""))

/-- The `raw_text` field: `data.get('ocr_text') or ''` (a non-string truthy
`ocr_text` is passed through by the source; it is normalized to `""` here and
never exercised). -/
def veryfiRawText (data : JVal) : String :=
  match pyOrJ (jGet data "ocr_text") (.str "") with
  | .str s => s
  | _ => ""

/-- The normalized record returned by `parse_receipt_veryfi`.  The `vendor`,
`date` and `predicted_category` entries of the Python result dict can hold
arbitrary response values, so they stay `JVal`-typed. -/
structure VeryfiParsed where
  amount : Option Dec
  vendor : JVal
  date : JVal
  description : Option String
  items : List ReceiptItem
  rawText : String
  predictedCategory : JVal
  deriving Repr

/-- Embedding of `parse_receipt_veryfi` (lines 324-418) applied to the decoded
response body; the only statements in its body that can raise past it are in
the line-item loop. -/
def parseReceiptVeryfi (data : JVal) : Except PyErr VeryfiParsed :=
  match veryfiLineItems data with
  | .error e => .error e
  | .ok p =>
      .ok { amount := veryfiAmount data
            vendor := veryfiVendorVal data
            date := veryfiDate data
            description := buildItemsDescription p.2
            items := p.1
            rawText := veryfiRawText data
            predictedCategory := veryfiCategory data }

/-! ## The keyword classifier (`SimpleExpenseClassifier`)

`self.keywords` is a Python dict from category name to keyword list; it is
embedded as an insertion-ordered association list with (as in any dict)
pairwise-distinct keys. -/

/-- A category-to-keywords mapping (the classifier's `self.keywords`). -/
abbrev KeywordModel := List (String × List String)

/-- The seed keyword model installed by `initialize_default_keywords`
(lines 446-459).  It is a plain dict literal: the `defaultdict` created in
`__init__` is discarded by this assignment. -/
def defaultKeywords : KeywordModel :=
  [("Food & Dining", ["restaurant", "cafe", "food", "pizza", "burger", "coffee",
      "lunch", "dinner", "breakfast", "mcdonald", "starbucks", "subway"]),
   ("Transportation", ["uber", "lyft", "taxi", "gas", "fuel", "parking", "metro",
      "bus", "train", "transit"]),
   ("Shopping", ["amazon", "mall", "store", "shop", "retail", "clothing",
      "fashion", "electronics"]),
   ("Entertainment", ["movie", "cinema", "netflix", "spotify", "game", "concert",
      "theater", "ticket"]),
   ("Bills & Utilities", ["electric", "water", "internet", "phone", "utility",
      "bill", "subscription"]),
   ("Healthcare", ["doctor", "hospital", "pharmacy", "medical", "health",
      "clinic", "medicine"]),
   ("Education", ["school", "university", "course", "book", "tuition",
      "education", "learning"]),
   ("Travel", ["hotel", "flight", "airline", "booking", "airbnb", "vacation",
      "travel"]),
   ("Groceries", ["grocery", "supermarket", "walmart", "target", "market",
      "produce", "vegetables"])]

/-- Keyword-list lookup in the model (plain-dict `self.keywords[category]`
semantics: `none` means `KeyError`). -/
def lookupKw : KeywordModel → String → Option (List String)
  | [], _ => none
  | (c, kws) :: t, cat => if c = cat then some kws else lookupKw t cat

/-- In-place update of one category's keyword list (dict item assignment /
list mutation; insertion order is preserved). -/
def updateKw : KeywordModel → String → List String → KeywordModel
  | [], _, _ => []
  | (c, kws) :: t, cat, new =>
      if c = cat then (c, new) :: t else (c, kws) :: updateKw t cat new

/-- Python `str.split()` with no argument: split on whitespace runs, dropping
empty pieces. -/
def pyWords (s : String) : List String :=
  ((splitChars pySpaceChar [] s.data).filter (· ≠ [])).map String.mk

/-- One `scores[category] += 1` on the insertion-ordered counter dict
(`defaultdict(int)` semantics: a first hit inserts the key at the end). -/
def bump : List (String × ℕ) → String → List (String × ℕ)
  | [], c => [(c, 1)]
  | (c', n) :: rest, c =>
      if c' = c then (c', n + 1) :: rest else (c', n) :: bump rest c

/-- The inner keyword loop of `predict_category` for one category. -/
def scoreOne (text : String) (cat : String) (kws : List String)
    (sc : List (String × ℕ)) : List (String × ℕ) :=
  kws.foldl (fun sc k => if pyIn (pyLower k) text then bump sc cat else sc) sc

/-- The score dict built by `predict_category`'s double loop. -/
def scoresFor (kw : KeywordModel) (text : String) : List (String × ℕ) :=
  kw.foldl (fun sc p => scoreOne text p.1 p.2 sc) []

/-- Python `max(items, key=lambda x: x[1])` over the counter dict's items:
keeps the current best unless a later item is strictly greater, so the first
maximal item wins. -/
def pyMaxBySnd : List (String × ℕ) → Option String
  | [] => none
  | x :: xs => some ((xs.foldl (fun best y => if y.2 > best.2 then y else best) x).1)

/-- Embedding of `SimpleExpenseClassifier.predict_category` (lines 473-485):
`if scores:` is the nonemptiness test on the counter dict, and `'Other'` is
the fallback when no keyword matched. -/
def predictCategory (kw : KeywordModel) (description vendor : String) : String :=
  let text := pyLower (description ++ " " ++ vendor)
  match pyMaxBySnd (scoresFor kw text) with
  | some c => c
  | none => "Other"

/-- Number of a category's keywords occurring as substrings of the text
(used only to state the specification of `predict_category`). -/
def hitCount (text : String) (kws : List String) : ℕ :=
  kws.countP (fun k => pyIn (pyLower k) text)

/-- The specification of `predict_category` as worded in the spec: count
keyword hits per known category, return the category with the highest count,
ties broken by the model's stored iteration order, and the sentinel
`"Other"` when every count is zero (including the empty model). -/
def specPredict (kw : KeywordModel) (description vendor : String) : String :=
  let text := pyLower (description ++ " " ++ vendor)
  let counts := kw.map (fun p => (p.1, hitCount text p.2))
  let maxVal := (counts.map Prod.snd).foldl Nat.max 0
  if maxVal = 0 then "Other"
  else ((counts.find? (fun p => p.2 == maxVal)).map Prod.fst).getD "Other"

/-- The word loop of `SimpleExpenseClassifier.train` (lines 487-493).  The
guard `len(word) > 3 and word not in self.keywords[category]` short-circuits,
so the plain-dict subscript — and hence the `KeyError` for a category absent
from the model — is reached at the first word longer than 3 characters. -/
def trainLoop (m : KeywordModel) (cat : String) : List String → Except PyErr KeywordModel
  | [] => .ok m
  | w :: ws =>
      if w.length > 3 then
        match lookupKw m cat with
        | none => .error .keyError
        | some kws =>
            if kws.contains w then trainLoop m cat ws
            else trainLoop (updateKw m cat (kws ++ [w])) cat ws
      else trainLoop m cat ws

/-- Embedding of `SimpleExpenseClassifier.train`: lower-case and whitespace-
split the concatenated description and vendor, then run the word loop.  (The
subsequent `save_model` call does not affect the in-memory model.) -/
def train (m : KeywordModel) (description vendor category : String) :
    Except PyErr KeywordModel :=
  trainLoop m category (pyWords (pyLower (description ++ " " ++ vendor)))

/-! ## The `/api/ocr` route handler (`ocr_receipt`, lines 860-906)

The handler is embedded as a pure function from the configuration, the
request, and two oracles (the outcome of the Veryfi HTTP call and the outcome
of the local OCR attempt) to a response together with the ordered trace of
image/file I/O operations it performs. -/

/-- Deployment configuration: `VERYFI_AVAILABLE` and `OCR_AVAILABLE`. -/
structure OcrConfig where
  veryfiAvailable : Bool
  ocrAvailable : Bool

/-- An uploaded file as seen by the handler. -/
structure FileUpload where
  filename : String
  deriving Repr, DecidableEq

/-- The part of the request the handler reads: `request.files`. -/
structure OcrRequest where
  files : List (String × FileUpload)

/-- Lookup of a form field in `request.files`. -/
def lookupFile : List (String × FileUpload) → String → Option FileUpload
  | [], _ => none
  | (k, f) :: t, key => if k = key then some f else lookupFile t key

/-- Image/file I/O operations performed by the handler, in order. -/
inductive FsEffect where
  | saveFile (path : String)
  | readFileBytes (path : String)
  | veryfiPost
  | ocrAttempt (path : String)
  | removeFile (path : String)
  deriving Repr, DecidableEq

/-- The handler's possible responses. -/
inductive OcrResponse where
  | scanningUnavailable
  | noFileUploaded
  | noFileSelected
  | okText (rawText : String) (parsed : ParsedReceipt) (predictedCategory : Option String)
  | okVeryfi (rawText : String) (parsed : VeryfiParsed) (predictedCategory : JVal)
  | apiError (detail : String)
  | serverError
  deriving Repr

/-- `werkzeug.secure_filename`, modelled as the identity (external library
function; no claim depends on its sanitization). -/
def secureFilename (s : String) : String := s

/-- `os.path.join(app.config['UPLOAD_FOLDER'], filename)`. -/
def uploadPath (filename : String) : String := "uploads/" ++ filename

/-- Embedding of `extract_text_from_image` (lines 224-232): any exception
raised while opening the image or running Tesseract is caught and the empty
string is returned. -/
def extractTextFromImage (ocrResult : Except Unit String) : String :=
  match ocrResult with
  | .ok t => t
  | .error _ => ""

/-- The category-prediction step of the Veryfi branch of the handler
(lines 884-887): keep a truthy backend category, otherwise predict from a
truthy vendor; a truthy non-string vendor would raise inside
`predict_category` (caught by the route's generic handler). -/
def veryfiPredicted (kw : KeywordModel) (p : VeryfiParsed) : Except PyErr JVal :=
  if truthy p.predictedCategory then .ok p.predictedCategory
  else if truthy p.vendor then
    match p.vendor with
    | .str v => .ok (.str (predictCategory kw v v))
    | _ => .error .typeError
  else .ok p.predictedCategory

/-- Embedding of the `ocr_receipt` route handler.  `kw` is the process-wide
classifier model, `veryfiResponse` the outcome of the Veryfi HTTP call
(`Except.error` = `requests.RequestException` with its diagnostic detail) and
`ocrResult` the outcome of the Tesseract invocation
(`Except.error` = an exception inside `extract_text_from_image`). -/
def ocrReceipt (kw : KeywordModel) (cfg : OcrConfig) (req : OcrRequest)
    (veryfiResponse : Except String JVal) (ocrResult : Except Unit String) :
    OcrResponse × List FsEffect :=
  if !cfg.veryfiAvailable && !cfg.ocrAvailable then (.scanningUnavailable, [])
  else
    match lookupFile req.files "file" with
    | none => (.noFileUploaded, [])
    | some f =>
        if f.filename = "" then (.noFileSelected, [])
        else
          let filepath := uploadPath (secureFilename f.filename)
          if cfg.veryfiAvailable then
            match veryfiResponse with
            | .error detail =>
                (.apiError detail,
                 [.saveFile filepath, .readFileBytes filepath, .veryfiPost, .removeFile filepath])
            | .ok data =>
                match parseReceiptVeryfi data with
                | .error _ =>
                    (.serverError,
                     [.saveFile filepath, .readFileBytes filepath, .veryfiPost, .removeFile filepath])
                | .ok p =>
                    match veryfiPredicted kw p with
                    | .error _ =>
                        (.serverError,
                         [.saveFile filepath, .readFileBytes filepath, .veryfiPost, .removeFile filepath])
                    | .ok pred =>
                        (.okVeryfi p.rawText p pred,
                         [.saveFile filepath, .readFileBytes filepath, .veryfiPost, .removeFile filepath])
          else
            let text := extractTextFromImage ocrResult
            let p := parseReceiptText text
            let predicted : Option String :=
              match p.vendor with
              | some v => if v ≠ "" then some (predictCategory kw v v) else none
              | none => none
            (.okText text p predicted,
             [.saveFile filepath, .ocrAttempt filepath, .removeFile filepath])

/-! ## Specification-side definitions

These definitions follow the words of the specification's claims (not the
source); the theorems below compare them with the embedded source
behavior. -/

/-- Vendor extraction as claim C3 words it: inspect exactly the first 5
non-blank lines and take the first qualifying one. -/
def vendorSpecC3 (text : String) : Option String :=
  (((pySplitNl text).filter (fun l => pyStrip l ≠ "")).take 5).findSome?
    (fun l => let t := pyStrip l; if vendorOk t then some t else none)

/-- Vendor extraction as the source actually behaves, restated
declaratively: inspect the first 5 raw lines of the newline split (blank
lines included) and take the first qualifying one. -/
def vendorSpecAmended (text : String) : Option String :=
  ((pySplitNl text).take 5).findSome?
    (fun l => let t := pyStrip l; if vendorOk t then some t else none)

/-- The structured response of the specification's scenario for claim C4:
the total wrapped in a single `value` wrapper. -/
def c4SingleWrapped : JVal :=
  .obj [("meta", .obj [("total", .obj [("value", .str "19.99")])])]

/-- The same response with one further `value` wrapper around the scalar. -/
def c4DoubleWrap (v : JVal) : JVal :=
  .obj [("meta", .obj [("total", .obj [("value", .obj [("value", v)])])])]

/-- Iterated `bump` (used to state what the keyword loop of
`predict_category` does to the score dict). -/
def bumpN (sc : List (String × ℕ)) (c : String) : ℕ → List (String × ℕ)
  | 0 => sc
  | n + 1 => bumpN (bump sc c) c n

/-! ## General lemmas about the amount scan -/

/-- Folding `<|>` from an accumulator splits into the accumulator followed by
the fold from `none`. -/
theorem foldlOrElse_from {α β : Type} (f : β → Option α) (ls : List β) (o : Option α) :
    ls.foldl (fun acc l => acc <|> f l) o =
      (o <|> ls.foldl (fun acc l => acc <|> f l) none) := by
  induction ls generalizing o with
  | nil => cases o <;> rfl
  | cons l t ih =>
      simp only [List.foldl_cons]
      rw [ih (o <|> f l), ih (none <|> f l)]
      cases o <;> rfl

/-- The amount line loop processes the head line first. -/
theorem extractAmountLines_cons (l : String) (ls : List String) :
    extractAmountLines (l :: ls) = (extractLineAmount l <|> extractAmountLines ls) := by
  unfold extractAmountLines
  simp only [List.foldl_cons]
  rw [foldlOrElse_from]
  rfl

/-- Lines producing no in-range amount contribute nothing to the scan. -/
theorem extractAmountLines_append_none (pre rest : List String)
    (h : ∀ l ∈ pre, extractLineAmount l = none) :
    extractAmountLines (pre ++ rest) = extractAmountLines rest := by
  induction pre with
  | nil => rfl
  | cons l t ih =>
      rw [List.cons_append, extractAmountLines_cons, h l (by simp),
        ih (fun x hx => h x (by simp [hx]))]
      rfl

/-- The nested line/pattern loop of the amount extraction equals the first
in-range candidate of the flattened candidate list. -/
theorem extractAmountLines_find (ls : List String) :
    extractAmountLines ls = ((ls.map lineCandidates).flatten).find? amountInRange := by
  induction ls with
  | nil => rfl
  | cons l t ih =>
      rw [extractAmountLines_cons, ih]
      have : ∀ x y : Option Dec, (x <|> y) = x.or y := by intro x y; cases x <;> rfl
      simp [List.find?_append, extractLineAmount, this]

/-- The range check tests exactly that the decimal's value is strictly
between 0 and 10000. -/
theorem amountInRange_iff (d : Dec) :
    amountInRange d = true ↔ 0 < d.toRat ∧ d.toRat < 10000 := by
  have h10 : (0 : ℚ) < 10 ^ d.exp := by positivity
  simp only [amountInRange, Dec.toRat, Bool.and_eq_true, decide_eq_true_eq]
  rw [lt_div_iff₀ h10, zero_mul, div_lt_iff₀ h10]
  constructor
  · rintro ⟨h1, h2⟩
    refine ⟨by exact_mod_cast h1, ?_⟩
    calc (d.mant : ℚ) < 10000 * 10 ^ d.exp := by exact_mod_cast h2
      _ = 10000 * 10 ^ d.exp := rfl
  · rintro ⟨h1, h2⟩
    exact ⟨by exact_mod_cast h1, by exact_mod_cast h2⟩

/-! ## Claim C1 -/

/-- Claim C1, counterexample: the text `"1.00\nTotal: $12.34"` contains the
line `"Total: $12.34"`, yet amount extraction returns 1.00 (the first
in-range match in reading order), not 12.34. -/
theorem c1_counterexample :
    (pySplitNl "1.00\nTotal: $12.34").contains "Total: $12.34" = true ∧
    extractAmount "1.00\nTotal: $12.34" = some ⟨100, 2⟩ ∧
    Dec.toRat ⟨100, 2⟩ ≠ 1234 / 100 := by
  refine ⟨by decide, by decide, ?_⟩
  norm_num [Dec.toRat]

/-- Claim C1 as amended: if the text contains the line `"Total: $12.34"` and
no earlier line yields an in-range numeric candidate, amount extraction
returns exactly 12.34. -/
theorem c1_amended (text : String) (pre post : List String)
    (hsplit : pySplitNl text = pre ++ "Total: $12.34" :: post)
    (hpre : ∀ l ∈ pre, extractLineAmount l = none) :
    extractAmount text = some ⟨1234, 2⟩ ∧ Dec.toRat ⟨1234, 2⟩ = 617 / 50 := by
  constructor
  · unfold extractAmount
    rw [hsplit, extractAmountLines_append_none pre _ hpre, extractAmountLines_cons]
    have h : extractLineAmount "Total: $12.34" = some ⟨1234, 2⟩ := by decide
    rw [h]
    rfl
  · norm_num [Dec.toRat]

/-- Witness for the amended claim C1 at a concrete receipt text. -/
theorem c1_amended_witness :
    extractAmount "STARBUCKS\nTotal: $12.34" = some ⟨1234, 2⟩ ∧
    Dec.toRat ⟨1234, 2⟩ = 617 / 50 :=
  c1_amended "STARBUCKS\nTotal: $12.34" ["STARBUCKS"] [] (by decide) (by decide)

/-! ## Claim C2 (counterexample part) -/

/-- Claim C2, counterexample: on the line `"2024-03-14"` the day/month/year
pattern (tried first) matches the proper substring `"24-03-14"` at the
earliest position, so the full `YYYY-MM-DD` token is not returned. -/
theorem c2_counterexample :
    extractDate "2024-03-14" = some "24-03-14" ∧
    some "24-03-14" ≠ some "2024-03-14" := by
  refine ⟨by decide, by decide⟩

/-! ## Claim C3 -/

/-- Claim C3, counterexample: after five blank lines, `"STARBUCKS"` is the
first non-empty line (so the claim demands it be found), but the source
inspects only the first five raw lines and returns absent. -/
theorem c3_counterexample :
    extractVendor "\n\n\n\n\nSTARBUCKS" = none ∧
    vendorSpecC3 "\n\n\n\n\nSTARBUCKS" = some "STARBUCKS" := by
  refine ⟨by decide, by decide⟩

/-- Claim C3 as amended: vendor extraction inspects exactly the first 5 raw
lines of the newline split (blank lines count toward the 5) and returns the
first stripped line longer than 2 characters with no run of 3 or more
consecutive digits. -/
theorem c3_amended (text : String) : extractVendor text = vendorSpecAmended text := by
  unfold extractVendor vendorSpecAmended
  generalize (pySplitNl text).take 5 = ls
  induction ls with
  | nil => rfl
  | cons l t ih =>
      by_cases h : vendorOk (pyStrip l) <;>
        simp [extractVendorLines, List.findSome?_cons, h, ih]

/-! ## Claim C4 -/

/-- Claim C4, counterexample: the scenario response normalizes to 19.99, but
adding one further `value` wrapper around the same scalar yields an absent
amount (the wrapper is unwrapped once, not to arbitrary depth). -/
theorem c4_counterexample :
    veryfiAmount c4SingleWrapped = some ⟨1999, 2⟩ ∧
    Dec.toRat ⟨1999, 2⟩ = 1999 / 100 ∧
    veryfiAmount (c4DoubleWrap (.str "19.99")) = none := by
  refine ⟨by decide, by norm_num [Dec.toRat], by decide⟩

/-- Claim C4 as amended: the normalizer unwraps exactly one `value` wrapper
after the key walk (so the scenario yields 19.99 and any additional wrapper
level yields absent), and a `None` met during the walk propagates. -/
theorem c4_amended :
    (∀ v : JVal, getNestedValue (.obj [("total", .obj [("value", v)])]) ["total"] = v) ∧
    (∀ keys : List String, getNestedValue .null keys = .null) ∧
    veryfiAmount c4SingleWrapped = some ⟨1999, 2⟩ ∧
    (∀ v : JVal, veryfiAmount (c4DoubleWrap v) = none) := by
  have hfold : ∀ keys : List String, keys.foldl jGet .null = .null := by
    intro keys
    induction keys with
    | nil => rfl
    | cons k t ih => simpa [jGet] using ih
  refine ⟨fun v => rfl, ?_, by decide, fun v => rfl⟩
  intro keys
  unfold getNestedValue
  rw [hfold]

/-! ## Claim C5 -/

/-- Claim C5 (code bug evaluated at the failing input): after default
initialization `self.keywords` is a plain dict, so training with a category
name absent from the model raises `KeyError` instead of adding the words —
the `defaultdict` created in `__init__` was discarded. -/
theorem c5_unknown_category_keyerror :
    train defaultKeywords "lunch meeting" "" "Custom Category" = .error .keyError ∧
    lookupKw defaultKeywords "Custom Category" = none := by
  refine ⟨by decide, by decide⟩

/-! ## Claim C7 -/

/-- Claim C7: when every numeric candidate in the text is out of range
(value at most 0 or at least 10000), amount extraction returns absent, and
the other fields are still extracted unchanged. -/
theorem c7_out_of_range (text : String)
    (h : ∀ d ∈ amountCandidates text, d.toRat ≤ 0 ∨ 10000 ≤ d.toRat) :
    parseReceiptText text =
      { amount := none, vendor := extractVendor text, date := extractDate text,
        items := [], description := extractDescription text } := by
  have hamount : extractAmount text = none := by
    unfold extractAmount
    rw [extractAmountLines_find]
    apply List.find?_eq_none.mpr
    intro d hd
    have hmem : d ∈ amountCandidates text := hd
    intro hrange
    rcases (amountInRange_iff d).mp hrange with ⟨h1, h2⟩
    rcases h d hmem with h3 | h3
    · exact absurd h1 (not_lt.mpr h3)
    · exact absurd h2 (not_lt.mpr h3)
  unfold parseReceiptText
  rw [hamount]

/-- Witness for claim C7: a text whose only candidates are 0.00 (twice via
the dollar and bare patterns) and 99999.00. -/
theorem c7_witness :
    (∀ d ∈ amountCandidates "Total: $0.00\nxx 99999.00",
        d.toRat ≤ 0 ∨ 10000 ≤ d.toRat) ∧
    parseReceiptText "Total: $0.00\nxx 99999.00" =
      { amount := none, vendor := extractVendor "Total: $0.00\nxx 99999.00",
        date := extractDate "Total: $0.00\nxx 99999.00", items := [],
        description := extractDescription "Total: $0.00\nxx 99999.00" } := by
  have hcands : amountCandidates "Total: $0.00\nxx 99999.00" =
      [⟨0, 2⟩, ⟨0, 2⟩, ⟨0, 2⟩, ⟨9999900, 2⟩] := by decide
  have h : ∀ d ∈ amountCandidates "Total: $0.00\nxx 99999.00",
      d.toRat ≤ 0 ∨ 10000 ≤ d.toRat := by
    rw [hcands]
    intro d hd
    simp only [List.mem_cons, List.not_mem_nil, or_false] at hd
    rcases hd with rfl | rfl | rfl | rfl
    · left; norm_num [Dec.toRat]
    · left; norm_num [Dec.toRat]
    · left; norm_num [Dec.toRat]
    · right; rw [Dec.toRat]; norm_num
  exact ⟨h, c7_out_of_range _ h⟩

/-! ## Claim C9 -/

/-- Claim C9: with neither the Veryfi backend configured nor local OCR
available, the request fails with the scanning-unavailable error and performs
no image or file I/O at all. -/
theorem c9_no_provider (kw : KeywordModel) (cfg : OcrConfig) (req : OcrRequest)
    (vres : Except String JVal) (ores : Except Unit String)
    (hv : cfg.veryfiAvailable = false) (ho : cfg.ocrAvailable = false) :
    ocrReceipt kw cfg req vres ores = (.scanningUnavailable, []) := by
  simp [ocrReceipt, hv, ho]

/-- Witness for claim C9 at a concrete configuration and request. -/
theorem c9_witness :
    ocrReceipt [] ⟨false, false⟩ ⟨[("file", ⟨"r.jpg"⟩)]⟩ (.ok .null) (.ok "text") =
      (.scanningUnavailable, []) :=
  c9_no_provider [] ⟨false, false⟩ ⟨[("file", ⟨"r.jpg"⟩)]⟩ (.ok .null) (.ok "text") rfl rfl

/-! ## Claim C10 -/

/-- Claim C10: on the local-OCR path, an exception inside text extraction is
swallowed (the empty string is returned) and the request completes
successfully with an all-absent parsed record and empty raw text. -/
theorem c10_ocr_failure (kw : KeywordModel) (cfg : OcrConfig) (req : OcrRequest)
    (f : FileUpload) (vres : Except String JVal)
    (hv : cfg.veryfiAvailable = false) (ho : cfg.ocrAvailable = true)
    (hf : lookupFile req.files "file" = some f) (hn : f.filename ≠ "") :
    ocrReceipt kw cfg req vres (.error ()) =
      (.okText "" ⟨none, none, none, [], none⟩ none,
       [.saveFile (uploadPath f.filename), .ocrAttempt (uploadPath f.filename),
        .removeFile (uploadPath f.filename)]) := by
  have hparse : parseReceiptText "" = ⟨none, none, none, [], none⟩ := by decide
  simp [ocrReceipt, hv, ho, hf, hn, extractTextFromImage, secureFilename, hparse]

/-- Witness for claim C10 at a concrete configuration, request and failing
OCR engine. -/
theorem c10_witness :
    ocrReceipt [] ⟨false, true⟩ ⟨[("file", ⟨"r.jpg"⟩)]⟩ (.ok .null) (.error ()) =
      (.okText "" ⟨none, none, none, [], none⟩ none,
       [.saveFile (uploadPath "r.jpg"), .ocrAttempt (uploadPath "r.jpg"),
        .removeFile (uploadPath "r.jpg")]) :=
  c10_ocr_failure [] ⟨false, true⟩ ⟨[("file", ⟨"r.jpg"⟩)]⟩ ⟨"r.jpg"⟩ (.ok .null)
    rfl rfl rfl (by decide)

/-! ## Claim C6 -/

/-- The line-item loop on items that are dicts carrying nonblank string
descriptions collects exactly the stripped descriptions, in order. -/
theorem parseLineItems_descOnly (ds : List String) (hs : ∀ d ∈ ds, pyStrip d ≠ "") :
    parseLineItems (ds.map fun d => .obj [("description", .str d)]) =
      .ok (ds.map (fun d => ⟨pyStrip d, none⟩), ds.map pyStrip) := by
  induction ds with
  | nil => rfl
  | cons d t ih =>
      have hds : pyStrip d ≠ "" := hs d (by simp)
      have hd : d ≠ "" := by
        intro h
        exact hds (by rw [h]; rfl)
      simp only [List.map_cons, parseLineItems]
      rw [ih (fun x hx => hs x (by simp [hx]))]
      simp [itemRawDesc, itemTotal, jGet, lookupField, pyOrJ, truthy, hd, hds]
      rfl

/-- Claim C6: when the backend supplies line items (dicts with nonblank
string descriptions), the normalized description is the comma-separated join
of the first 15 item descriptions, with a `" (+<n> more)"` suffix counting
the omitted items when more than 15 exist. -/
theorem c6_items_description (ds : List String) (hne : ds ≠ [])
    (hs : ∀ d ∈ ds, pyStrip d ≠ "") :
    (parseReceiptVeryfi (.obj [("line_items",
        .arr (ds.map fun d => .obj [("description", .str d)]))])).map
        VeryfiParsed.description =
      .ok (some (pyJoin ", " ((ds.map pyStrip).take 15) ++
        (if 15 < ds.length then " (+" ++ toString (ds.length - 15) ++ " more)"
         else ""))) := by
  have harr : (ds.map fun d => JVal.obj [("description", .str d)]) ≠ [] := by
    simpa using hne
  have hli : veryfiLineItems (.obj [("line_items",
      .arr (ds.map fun d => JVal.obj [("description", .str d)]))]) =
      parseLineItems (ds.map fun d => JVal.obj [("description", .str d)]) := by
    unfold veryfiLineItems
    have hitems : pyOrJ (jGet (.obj [("line_items",
        .arr (ds.map fun d => JVal.obj [("description", .str d)]))]) "line_items")
        (.arr []) = .arr (ds.map fun d => JVal.obj [("description", .str d)]) := by
      simp [jGet, lookupField, pyOrJ, truthy, harr]
    rw [hitems]
  unfold parseReceiptVeryfi
  rw [hli, parseLineItems_descOnly ds hs]
  have hjoin : buildItemsDescription (ds.map pyStrip) =
      some (pyJoin ", " ((ds.map pyStrip).take 15) ++
        (if 15 < ds.length then " (+" ++ toString (ds.length - 15) ++ " more)"
         else "")) := by
    unfold buildItemsDescription
    rw [if_neg (by simpa using hne)]
    simp [List.length_map]
  simp [hjoin]
  rfl

/-- Witness for claim C6: 17 line items produce the first 15 descriptions
plus a `" (+2 more)"` suffix. -/
theorem c6_witness :
    (parseReceiptVeryfi (.obj [("line_items",
        .arr ((["i01", "i02", "i03", "i04", "i05", "i06", "i07", "i08", "i09",
          "i10", "i11", "i12", "i13", "i14", "i15", "i16", "i17"]).map
          fun d => .obj [("description", .str d)]))])).map VeryfiParsed.description =
      .ok (some ("i01, i02, i03, i04, i05, i06, i07, i08, i09, i10, i11, i12, i13, i14, i15 (+2 more)")) := by
  rw [c6_items_description _ (by decide) (by decide)]
  decide

/-! ## Claim C8

The proof relates the imperative score dict of `predict_category` (built with
`defaultdict(int)` increments, iterated in insertion order) to the per-category
hit counts, and Python's `max(..., key=...)` to the first entry achieving the
maximal count. -/

/-- The keyword loop for one category bumps that category's counter once per
hit. -/
theorem scoreOne_eq_bumpN (text cat : String) (kws : List String)
    (sc : List (String × ℕ)) :
    scoreOne text cat kws sc = bumpN sc cat (hitCount text kws) := by
  induction kws generalizing sc with
  | nil => rfl
  | cons k t ih =>
      unfold scoreOne at ih ⊢
      simp only [List.foldl_cons]
      rw [ih]
      unfold hitCount
      rw [List.countP_cons]
      by_cases h : pyIn (pyLower k) text
      · rw [if_pos h, if_pos (by simpa using h)]
        rfl
      · rw [if_neg h, if_neg (by simpa using h)]
        rw [Nat.add_zero]

/-- Bumping a key absent from the score dict appends a fresh entry. -/
theorem bump_notMem (sc : List (String × ℕ)) (c : String)
    (h : c ∉ sc.map Prod.fst) : bump sc c = sc ++ [(c, 1)] := by
  induction sc with
  | nil => rfl
  | cons p t ih =>
      simp only [List.map_cons, List.mem_cons] at h
      push_neg at h
      obtain ⟨c', n⟩ := p
      unfold bump
      rw [if_neg (fun hh => h.1 hh.symm), ih h.2]
      rfl

/-- Bumping the final entry of the dict increments it in place. -/
theorem bump_last (c : String) (m : ℕ) :
    ∀ sc : List (String × ℕ), c ∉ sc.map Prod.fst →
    bump (sc ++ [(c, m)]) c = sc ++ [(c, m + 1)] := by
  intro sc
  induction sc with
  | nil => intro _; simp [bump]
  | cons p t ih =>
      intro h
      simp only [List.map_cons, List.mem_cons] at h
      push_neg at h
      obtain ⟨c', n⟩ := p
      simp only [List.cons_append, bump, List.append_eq]
      rw [if_neg (fun hh => h.1 hh.symm), ih h.2]

/-- Iterated bumps of the final entry add to it in place. -/
theorem bumpN_last (c : String) :
    ∀ (n : ℕ) (sc : List (String × ℕ)) (m : ℕ), c ∉ sc.map Prod.fst →
    bumpN (sc ++ [(c, m)]) c n = sc ++ [(c, m + n)] := by
  intro n
  induction n with
  | zero => intro sc m _; rfl
  | succ n ih =>
      intro sc m h
      show bumpN (bump (sc ++ [(c, m)]) c) c n = _
      rw [bump_last c m sc h, ih sc (m + 1) h, Nat.add_assoc, Nat.add_comm 1 n]

/-- Iterated bumps of a fresh key append one entry carrying the whole
count. -/
theorem bumpN_fresh (sc : List (String × ℕ)) (c : String)
    (h : c ∉ sc.map Prod.fst) (n : ℕ) :
    bumpN sc c (n + 1) = sc ++ [(c, n + 1)] := by
  show bumpN (bump sc c) c n = _
  rw [bump_notMem sc c h, bumpN_last c n sc 1 h, Nat.add_comm 1 n]

/-- The category loop of `predict_category` builds, in model order, exactly
the entries with a positive hit count. -/
theorem scoresFor_go (text : String) :
    ∀ (kw : KeywordModel) (sc : List (String × ℕ)),
    (∀ p ∈ kw, p.1 ∉ sc.map Prod.fst) → (kw.map Prod.fst).Nodup →
    kw.foldl (fun sc p => scoreOne text p.1 p.2 sc) sc =
      sc ++ (kw.map (fun p => (p.1, hitCount text p.2))).filter
        (fun q => q.2 != 0) := by
  intro kw
  induction kw with
  | nil => intro sc _ _; simp
  | cons p t ih =>
      intro sc hdisj hnd
      obtain ⟨c, kws⟩ := p
      simp only [List.map_cons, List.nodup_cons] at hnd
      simp only [List.foldl_cons]
      rw [scoreOne_eq_bumpN]
      have hc : c ∉ sc.map Prod.fst := hdisj (c, kws) (by simp)
      rcases Nat.eq_zero_or_pos (hitCount text kws) with h0 | hpos
      · rw [h0]
        show t.foldl (fun sc p => scoreOne text p.1 p.2 sc) sc = _
        rw [ih sc (fun q hq => hdisj q (by simp [hq])) hnd.2]
        simp [List.filter_cons, h0]
      · obtain ⟨n, hn⟩ : ∃ n, hitCount text kws = n + 1 :=
          ⟨hitCount text kws - 1, (Nat.succ_pred_eq_of_pos hpos).symm⟩
        rw [hn, bumpN_fresh sc c hc n]
        have hdisj2 : ∀ q ∈ t, q.1 ∉ (sc ++ [(c, n + 1)]).map Prod.fst := by
          intro q hq
          simp only [List.map_append, List.mem_append, List.map_cons,
            List.mem_singleton, List.map_nil, List.mem_cons, List.not_mem_nil,
            or_false]
          push_neg
          refine ⟨fun hmem => hdisj q (by simp [hq]) hmem, fun heq => ?_⟩
          exact hnd.1 (heq ▸ List.mem_map_of_mem Prod.fst hq)
        rw [ih (sc ++ [(c, n + 1)]) hdisj2 hnd.2]
        simp [List.filter_cons, hn]

/-- The score dict of `predict_category` is the positive-count restriction of
the per-category hit counts, in model order. -/
theorem scoresFor_eq (kw : KeywordModel) (text : String)
    (hnd : (kw.map Prod.fst).Nodup) :
    scoresFor kw text =
      (kw.map (fun p => (p.1, hitCount text p.2))).filter (fun q => q.2 != 0) := by
  unfold scoresFor
  simpa using scoresFor_go text kw [] (by simp) hnd

/-- Folding `Nat.max` from an arbitrary start. -/
theorem foldl_max_init (a : ℕ) (xs : List ℕ) :
    xs.foldl Nat.max a = Nat.max a (xs.foldl Nat.max 0) := by
  induction xs generalizing a with
  | nil => simp
  | cons x t ih =>
      simp only [List.foldl_cons]
      rw [ih (Nat.max a x), ih (Nat.max 0 x)]
      have h0 : Nat.max 0 x = x := Nat.max_eq_right (Nat.zero_le x)
      have hassoc : Nat.max (Nat.max a x) (t.foldl Nat.max 0) =
          Nat.max a (Nat.max x (t.foldl Nat.max 0)) := Nat.max_assoc a x _
      rw [h0, hassoc]

/-- Unfolding the running maximum over a cons cell. -/
theorem foldl_max_cons (x : ℕ) (xs : List ℕ) :
    (x :: xs).foldl Nat.max 0 = Nat.max x (xs.foldl Nat.max 0) := by
  simp only [List.foldl_cons]
  rw [foldl_max_init (Nat.max 0 x) xs]
  have h0 : Nat.max 0 x = x := Nat.max_eq_right (Nat.zero_le x)
  rw [h0]

/-- Every element is bounded by the running maximum. -/
theorem le_foldl_max (x : ℕ) (xs : List ℕ) (h : x ∈ xs) :
    x ≤ xs.foldl Nat.max 0 := by
  induction xs with
  | nil => cases h
  | cons y t ih =>
      rw [foldl_max_cons]
      rcases List.mem_cons.mp h with rfl | hmem
      · exact Nat.le_max_left _ _
      · exact le_trans (ih hmem) (Nat.le_max_right _ _)

/-- A nonzero running maximum is attained by some element. -/
theorem foldl_max_attained (xs : List ℕ) (h : xs.foldl Nat.max 0 ≠ 0) :
    xs.foldl Nat.max 0 ∈ xs := by
  induction xs with
  | nil => simp at h
  | cons x t ih =>
      rw [foldl_max_cons] at h ⊢
      rcases Nat.le_total x (t.foldl Nat.max 0) with hle | hle
      · have hmx : Nat.max x (t.foldl Nat.max 0) = t.foldl Nat.max 0 :=
          Nat.max_eq_right hle
        rw [hmx] at h ⊢
        exact List.mem_cons_of_mem x (ih h)
      · have hmx : Nat.max x (t.foldl Nat.max 0) = x := Nat.max_eq_left hle
        rw [hmx]
        exact List.mem_cons_self x t

/-- A nonzero maximal count is attained by some score entry. -/
theorem exists_snd_eq_max (xs : List (String × ℕ))
    (h : (xs.map Prod.snd).foldl Nat.max 0 ≠ 0) :
    ∃ p ∈ xs, p.2 = (xs.map Prod.snd).foldl Nat.max 0 := by
  have hmem := foldl_max_attained (xs.map Prod.snd) h
  obtain ⟨p, hp, hval⟩ := List.mem_map.mp hmem
  exact ⟨p, hp, hval⟩

/-- Python's `max` with a key function returns the first element achieving
the maximal key. -/
theorem pyMax_foldl_eq (x : String × ℕ) (xs : List (String × ℕ)) :
    xs.foldl (fun best y => if y.2 > best.2 then y else best) x =
      ((x :: xs).find? (fun p => p.2 == ((x :: xs).map Prod.snd).foldl Nat.max 0)).getD x := by
  induction xs generalizing x with
  | nil =>
      have h0 : Nat.max 0 x.2 = x.2 := Nat.max_eq_right (Nat.zero_le _)
      simp [List.find?, h0]
  | cons y t ih =>
      simp only [List.foldl_cons]
      rw [ih (if y.2 > x.2 then y else x)]
      have hcons2 : ((x :: y :: t).map Prod.snd).foldl Nat.max 0 =
          Nat.max x.2 (Nat.max y.2 ((t.map Prod.snd).foldl Nat.max 0)) := by
        simp only [List.map_cons]
        rw [foldl_max_cons, foldl_max_cons]
      by_cases hyx : y.2 > x.2
      · have hzy : (if y.2 > x.2 then y else x) = y := if_pos hyx
        rw [hzy]
        have habs : Nat.max x.2 (Nat.max y.2 ((t.map Prod.snd).foldl Nat.max 0)) =
            Nat.max y.2 ((t.map Prod.snd).foldl Nat.max 0) :=
          Nat.max_eq_right (le_trans (Nat.le_of_lt hyx) (Nat.le_max_left _ _))
        have hM2 : ((y :: t).map Prod.snd).foldl Nat.max 0 =
            ((x :: y :: t).map Prod.snd).foldl Nat.max 0 := by
          rw [hcons2, habs]
          simp only [List.map_cons]
          rw [foldl_max_cons]
        rw [hM2]
        set M := ((x :: y :: t).map Prod.snd).foldl Nat.max 0 with hMdef
        have hyM : y.2 ≤ M := by
          rw [hMdef]
          apply le_foldl_max
          simp
        have hxne : ¬((fun p => p.2 == M) x) = true := by
          simp only [beq_iff_eq]
          omega
        have hfind : ((y :: t).find? (fun p => p.2 == M)).isSome = true := by
          rw [List.find?_isSome]
          by_cases hM0 : M = 0
          · have hy0 : y.2 = 0 := le_antisymm (hM0 ▸ hyM) (Nat.zero_le _)
            exact ⟨y, by simp, by simp [hy0, hM0]⟩
          · obtain ⟨p, hp, hval⟩ := exists_snd_eq_max (y :: t)
              (by rw [hM2]; exact hM0)
            refine ⟨p, hp, ?_⟩
            rw [hval, hM2]
            simp
        obtain ⟨w, hw⟩ := Option.isSome_iff_exists.mp hfind
        rw [List.find?_cons_of_neg (y :: t) hxne, hw]
        rfl
      · have hzx : (if y.2 > x.2 then y else x) = x := if_neg hyx
        rw [hzx]
        have hyx2 : y.2 ≤ x.2 := Nat.le_of_not_lt hyx
        have habs : Nat.max x.2 (Nat.max y.2 ((t.map Prod.snd).foldl Nat.max 0)) =
            Nat.max x.2 ((t.map Prod.snd).foldl Nat.max 0) := by
          have h1 : Nat.max x.2 (Nat.max y.2 ((t.map Prod.snd).foldl Nat.max 0)) =
              Nat.max (Nat.max x.2 y.2) ((t.map Prod.snd).foldl Nat.max 0) :=
            (Nat.max_assoc x.2 y.2 _).symm
          have h2 : Nat.max x.2 y.2 = x.2 := Nat.max_eq_left hyx2
          rw [h1, h2]
        have hM2 : ((x :: t).map Prod.snd).foldl Nat.max 0 =
            ((x :: y :: t).map Prod.snd).foldl Nat.max 0 := by
          rw [hcons2, habs]
          simp only [List.map_cons]
          rw [foldl_max_cons]
        rw [hM2]
        set M := ((x :: y :: t).map Prod.snd).foldl Nat.max 0 with hMdef
        have hxM : x.2 ≤ M := by
          rw [hMdef]
          apply le_foldl_max
          simp
        by_cases hx : ((fun p => p.2 == M) x) = true
        · rw [List.find?_cons_of_pos t hx, List.find?_cons_of_pos (y :: t) hx]
        · rw [List.find?_cons_of_neg t hx, List.find?_cons_of_neg (y :: t) hx]
          have hy : ¬((fun p => p.2 == M) y) = true := by
            simp only [beq_iff_eq]
            simp only [beq_iff_eq] at hx
            omega
          rw [List.find?_cons_of_neg t hy]

/-- Dropping zero-count entries does not change which entry is found when a
nonzero count is searched for. -/
theorem find?_filter_ne_zero (M : ℕ) (hM : M ≠ 0) :
    ∀ xs : List (String × ℕ),
    (xs.filter (fun q => q.2 != 0)).find? (fun p => p.2 == M) =
      xs.find? (fun p => p.2 == M) := by
  intro xs
  induction xs with
  | nil => rfl
  | cons q t ih =>
      simp only [List.filter_cons]
      by_cases hq : (q.2 != 0) = true
      · rw [if_pos hq, List.find?_cons, List.find?_cons]
        cases hpq : (q.2 == M) <;> simp [hpq, ih]
      · have hq0 : q.2 = 0 := by simpa using hq
        rw [if_neg (by simpa using hq), List.find?_cons]
        have hne : (q.2 == M) = false := by
          simp only [beq_eq_false_iff_ne, ne_eq]
          omega
        rw [hne, ih]

/-- Dropping zero-count entries does not change the maximal count. -/
theorem foldl_max_filter_ne_zero :
    ∀ xs : List (String × ℕ),
    ((xs.filter (fun q => q.2 != 0)).map Prod.snd).foldl Nat.max 0 =
      (xs.map Prod.snd).foldl Nat.max 0 := by
  intro xs
  induction xs with
  | nil => rfl
  | cons q t ih =>
      simp only [List.filter_cons]
      by_cases hq : (q.2 != 0) = true
      · rw [if_pos hq]
        simp only [List.map_cons]
        rw [foldl_max_cons, foldl_max_cons, ih]
      · have hq0 : q.2 = 0 := by simpa using hq
        rw [if_neg (by simpa using hq)]
        simp only [List.map_cons]
        rw [foldl_max_cons, ih, hq0]
        have h0 : Nat.max 0 ((t.map Prod.snd).foldl Nat.max 0) =
            (t.map Prod.snd).foldl Nat.max 0 := Nat.max_eq_right (Nat.zero_le _)
        rw [h0]

/-- Claim C8: `predict_category` lower-cases the input, counts keyword
substring hits per category, and returns the category with the highest count
(ties broken by the model's stored iteration order), with the sentinel
`"Other"` when every count is zero — stated as equality with the
specification-side `specPredict`. -/
theorem c8_predict_eq_spec (kw : KeywordModel)
    (hnd : (kw.map Prod.fst).Nodup) (description vendor : String) :
    predictCategory kw description vendor = specPredict kw description vendor := by
  simp only [predictCategory, specPredict]
  rw [scoresFor_eq kw _ hnd]
  set text := pyLower (description ++ " " ++ vendor) with htext
  set counts := kw.map (fun p => (p.1, hitCount text p.2)) with hcounts
  set M := (counts.map Prod.snd).foldl Nat.max 0 with hMdef
  by_cases hM : M = 0
  · have hempty : counts.filter (fun q => q.2 != 0) = [] := by
      rw [List.filter_eq_nil_iff]
      intro q hq
      have := le_foldl_max q.2 (counts.map Prod.snd) (List.mem_map_of_mem Prod.snd hq)
      simp only [bne_iff_ne, ne_eq, Decidable.not_not]
      omega
    rw [hempty, if_pos hM]
    rfl
  · rw [if_neg hM]
    obtain ⟨p, hp, hpval⟩ := exists_snd_eq_max counts (by rw [← hMdef]; exact hM)
    have hpfilter : p ∈ counts.filter (fun q => q.2 != 0) := by
      rw [List.mem_filter]
      refine ⟨hp, ?_⟩
      simp only [bne_iff_ne, ne_eq]
      omega
    have hfind : (counts.find? (fun q => q.2 == M)).isSome = true := by
      rw [List.find?_isSome]
      exact ⟨p, hp, by simp [hpval, ← hMdef]⟩
    obtain ⟨w, hw⟩ := Option.isSome_iff_exists.mp hfind
    cases hflt : counts.filter (fun q => q.2 != 0) with
    | nil => rw [hflt] at hpfilter; cases hpfilter
    | cons s rest =>
        have hpm : pyMaxBySnd (s :: rest) =
            some ((rest.foldl (fun best y => if y.2 > best.2 then y else best) s).1) := rfl
        rw [hpm, pyMax_foldl_eq s rest]
        have hMs : ((s :: rest).map Prod.snd).foldl Nat.max 0 = M := by
          rw [← hflt, foldl_max_filter_ne_zero, ← hMdef]
        rw [hMs]
        have hfound : (s :: rest).find? (fun p => p.2 == M) = some w := by
          rw [← hflt, find?_filter_ne_zero M hM, hw]
        rw [hfound, hw]
        rfl

/-- Witness for claim C8 at the default keyword model and a concrete
vendor text. -/
theorem c8_witness :
    (defaultKeywords.map Prod.fst).Nodup ∧
    predictCategory defaultKeywords "STARBUCKS" "STARBUCKS" =
      specPredict defaultKeywords "STARBUCKS" "STARBUCKS" ∧
    predictCategory defaultKeywords "STARBUCKS" "STARBUCKS" = "Food & Dining" :=
  ⟨by decide, c8_predict_eq_spec defaultKeywords (by decide) "STARBUCKS" "STARBUCKS",
    by decide⟩

/-! ## Claim C2 (amended part) -/

/-- A digit character is not a date separator. -/
theorem digit_not_sep {c : Char} (h : c.isDigit = true) :
    ¬(c = '/' ∨ c = '-') := by
  rintro (rfl | rfl) <;> exact absurd h (by decide)

/-- Lines with no date match contribute nothing to the date scan. -/
theorem extractDateLines_append_none (pre rest : List String)
    (h : ∀ l ∈ pre, dateSearchLine l = none) :
    extractDateLines (pre ++ rest) = extractDateLines rest := by
  induction pre with
  | nil => rfl
  | cons l t ih =>
      rw [List.cons_append]
      have hstep : extractDateLines (l :: (t ++ rest)) = extractDateLines (t ++ rest) := by
        have hcons : extractDateLines (l :: (t ++ rest)) =
            match dateSearchLine l with
            | some d => some d
            | none => extractDateLines (t ++ rest) := rfl
        rw [hcons, h l (by simp)]
      rw [hstep]
      exact ih (fun x hx => h x (by simp [hx]))

/-- On a line consisting of a full `YYYY-MM-DD` date, the day/month/year
pattern — searched first — matches the proper substring starting at the
third character, so the extracted literal is `YY-MM-DD`. -/
theorem dateSearchLine_yyyy (y1 y2 y3 y4 m1 m2 d1 d2 : Char)
    (hy1 : y1.isDigit = true) (hy2 : y2.isDigit = true) (hy3 : y3.isDigit = true)
    (hy4 : y4.isDigit = true) (hm1 : m1.isDigit = true) (hm2 : m2.isDigit = true)
    (hd1 : d1.isDigit = true) (hd2 : d2.isDigit = true) :
    dateSearchLine (String.mk [y1, y2, y3, y4, '-', m1, m2, '-', d1, d2]) =
      some (String.mk [y3, y4, '-', m1, m2, '-', d1, d2]) := by
  have s2 := digit_not_sep hy2
  have s3 := digit_not_sep hy3
  have s4 := digit_not_sep hy4
  have sm1 := digit_not_sep hm1
  have sm2 := digit_not_sep hm2
  have sd1 := digit_not_sep hd1
  have sd2 := digit_not_sep hd2
  have hdash : ('-').isDigit = false := by decide
  simp [dateSearchLine, scanSearch, dmyAt, dmyAfterDay, dmyMonthAt, dmyAfterMonth,
    dmyYear, digitsN, dateSep, hy1, hy2, hy3, hy4, hm1, hm2, hd1, hd2,
    s2, s3, s4, sm1, sm2, sd1, sd2, hdash, Option.map_map]

/-- Claim C2 as amended: date extraction scans lines top-to-bottom, trying
the day/month/year pattern (1-2 digit day, 1-2 digit month, 2-4 digit year)
before the year-first pattern on each line, and returns the matched literal
substring; in particular a line that is a full `YYYY-MM-DD` date yields the
truncated literal `YY-MM-DD`, not the whole token. -/
theorem c2_amended (text : String) (pre post : List String)
    (y1 y2 y3 y4 m1 m2 d1 d2 : Char)
    (hy1 : y1.isDigit = true) (hy2 : y2.isDigit = true) (hy3 : y3.isDigit = true)
    (hy4 : y4.isDigit = true) (hm1 : m1.isDigit = true) (hm2 : m2.isDigit = true)
    (hd1 : d1.isDigit = true) (hd2 : d2.isDigit = true)
    (hsplit : pySplitNl text =
      pre ++ String.mk [y1, y2, y3, y4, '-', m1, m2, '-', d1, d2] :: post)
    (hpre : ∀ l ∈ pre, dateSearchLine l = none) :
    extractDate text = some (String.mk [y3, y4, '-', m1, m2, '-', d1, d2]) := by
  unfold extractDate
  rw [hsplit, extractDateLines_append_none pre _ hpre]
  unfold extractDateLines
  rw [dateSearchLine_yyyy y1 y2 y3 y4 m1 m2 d1 d2 hy1 hy2 hy3 hy4 hm1 hm2 hd1 hd2]

/-- Witness for the amended claim C2 at a concrete receipt text. -/
theorem c2_amended_witness :
    extractDate "STARBUCKS\n2024-03-14" = some "24-03-14" := by
  rw [c2_amended "STARBUCKS\n2024-03-14" ["STARBUCKS"] [] '2' '0' '2' '4' '0' '3' '1' '4'
    (by decide) (by decide) (by decide) (by decide) (by decide) (by decide)
    (by decide) (by decide) (by decide) (by decide)]

end ExpenseVision
